import Mathlib

/-!
Verification development for the full-text search and indexing subsystem of the
web-obsidian repository (backend/app/search plus the bulk reindex loop in
backend/app/main.py).  Python strings are embedded as lists of characters;
stateful index operations are embedded as explicit state passing over a list of
document records.  The embedded Python regular expressions are given semantics
by a small explicit backtracking matcher that mirrors the behaviour of the
re module (leftmost match, greedy and lazy repetition with backtracking,
numbered capture groups, MULTILINE anchors).
-/

namespace WebObsidian

/-- Python strings are embedded as lists of characters. -/
abbrev Str := List Char

/-- Whitespace test used for the regex class backslash-s and for str.strip,
restricted to the six ASCII whitespace characters (space, tab, newline,
carriage return, vertical tab, form feed); the repository handles ASCII
content in all places relevant to the claims. -/
def isPyWs (c : Char) : Bool :=
  c = ' ' || c = '\t' || c = '\n' || c = '\r' || c = Char.ofNat 11 || c = Char.ofNat 12

/-- Abstract syntax for the regular expressions appearing in the source.
cls is a character class given by its membership test; star is greedy
repetition, lstar is lazy repetition; grp is a numbered capture group;
bol and eol are the MULTILINE anchors. -/
inductive RE where
  | eps : RE
  | cls : (Char → Bool) → RE
  | seq : RE → RE → RE
  | alt : RE → RE → RE
  | star : RE → RE
  | lstar : RE → RE
  | grp : Nat → RE → RE
  | bol : RE
  | eol : RE

/-- Structural size of a regular expression, used to pick a sufficient fuel
for the backtracking matcher. -/
def reSize : RE → Nat
  | .eps => 1
  | .cls _ => 1
  | .seq a b => reSize a + reSize b + 1
  | .alt a b => reSize a + reSize b + 1
  | .star r => reSize r + 1
  | .lstar r => reSize r + 1
  | .grp _ r => reSize r + 1
  | .bol => 1
  | .eol => 1

/-- Backtracking matcher in continuation-passing style.  The state is the
remaining input, the previously consumed character (for the beginning-of-line
anchor) and the capture list (most recent capture first).  Alternatives are
tried in the same order as Python's re module: alt tries its left branch
first, star tries to consume first and falls back to the continuation, lstar
tries the continuation first.  Repetition bodies must consume at least one
character per iteration, matching the re module's refusal to loop on empty
matches. -/
def reRun : Nat → RE → Str → Option Char → List (Nat × Str) →
    (Str → Option Char → List (Nat × Str) → Option (Str × List (Nat × Str))) →
    Option (Str × List (Nat × Str))
  | 0, _, _, _, _, _ => none
  | fuel + 1, re, s, prev, caps, k =>
    match re with
    | .eps => k s prev caps
    | .cls p =>
      match s with
      | [] => none
      | c :: rest => if p c then k rest (some c) caps else none
    | .seq a b =>
      reRun fuel a s prev caps (fun s' p' c' => reRun fuel b s' p' c' k)
    | .alt a b =>
      match reRun fuel a s prev caps k with
      | some m => some m
      | none => reRun fuel b s prev caps k
    | .star r =>
      match reRun fuel r s prev caps
          (fun s' p' c' =>
            if s'.length < s.length then reRun fuel (.star r) s' p' c' k else none) with
      | some m => some m
      | none => k s prev caps
    | .lstar r =>
      match k s prev caps with
      | some m => some m
      | none =>
        reRun fuel r s prev caps
          (fun s' p' c' =>
            if s'.length < s.length then reRun fuel (.lstar r) s' p' c' k else none)
    | .grp n r =>
      reRun fuel r s prev caps
        (fun s' p' c' => k s' p' ((n, s.take (s.length - s'.length)) :: c'))
    | .bol => if prev = none ∨ prev = some '\n' then k s prev caps else none
    | .eol => if s = [] ∨ s.head? = some '\n' then k s prev caps else none

/-- Attempt to match a regular expression at the current position.  The prev
argument is the character immediately before the position (none at the start
of the input).  Returns the rest of the input after the match together with
the captures. -/
def reMatchAt (re : RE) (s : Str) (prev : Option Char) :
    Option (Str × List (Nat × Str)) :=
  reRun ((reSize re + 2) * (s.length + 2) * 4) re s prev []
    (fun s' _ c' => some (s', c'))

/-- One match produced by scanning: start position, matched length, captures. -/
structure REMatch where
  start : Nat
  matchedLen : Nat
  caps : List (Nat × Str)
deriving Repr

/-- Scan for all non-overlapping matches, left to right, continuing after the
end of each match; a zero-width match advances by one character, as in the
re module's finditer. -/
def reFindIterAux : Nat → RE → Str → Option Char → Nat → List REMatch
  | 0, _, _, _, _ => []
  | fuel + 1, re, s, prev, pos =>
    match reMatchAt re s prev with
    | some (rest, caps) =>
      let m := s.length - rest.length
      if m = 0 then
        match s with
        | [] => [⟨pos, 0, caps⟩]
        | c :: s' => ⟨pos, 0, caps⟩ :: reFindIterAux fuel re s' (some c) (pos + 1)
      else
        ⟨pos, m, caps⟩ :: reFindIterAux fuel re rest ((s.take m).getLast?.getD ' ' |> some) (pos + m)
    | none =>
      match s with
      | [] => []
      | c :: s' => reFindIterAux fuel re s' (some c) (pos + 1)

/-- All matches of a pattern in a string, as re.finditer. -/
def reFindIter (re : RE) (s : Str) : List REMatch :=
  reFindIterAux (s.length + 1) re s none 0

/-- Substitute every match by a replacement computed from its captures, as
re.sub with a replacement template. -/
def reSubAux : Nat → RE → (List (Nat × Str) → Str) → Str → Option Char → Str
  | 0, _, _, s, _ => s
  | fuel + 1, re, repl, s, prev =>
    match reMatchAt re s prev with
    | some (rest, caps) =>
      let m := s.length - rest.length
      if m = 0 then
        match s with
        | [] => repl caps
        | c :: s' => repl caps ++ c :: reSubAux fuel re repl s' (some c)
      else
        repl caps ++ reSubAux fuel re repl rest ((s.take m).getLast?.getD ' ' |> some)
    | none =>
      match s with
      | [] => []
      | c :: s' => c :: reSubAux fuel re repl s' (some c)

/-- Substitution entry point. -/
def reSub (re : RE) (repl : List (Nat × Str) → Str) (s : Str) : Str :=
  reSubAux (s.length + 1) re repl s none

/-- Look up the text captured by a numbered group (most recent capture wins,
as in the re module). -/
def capLookup (n : Nat) (caps : List (Nat × Str)) : Option Str :=
  (caps.find? (fun kv => kv.1 = n)).map (fun kv => kv.2)

/-- Literal character. -/
def rchr (c : Char) : RE := .cls (fun x => x = c)

/-- Literal string. -/
def rstr : Str → RE
  | [] => .eps
  | c :: rest => .seq (rchr c) (rstr rest)

/-- Repetition with at least one occurrence (regex plus). -/
def rplus (r : RE) : RE := .seq r (.star r)

/-- Optional occurrence, greedy (regex question mark). -/
def ropt (r : RE) : RE := .alt r .eps

/-- Any character, with the DOTALL flag set (the dot in a DOTALL pattern). -/
def anyCls : RE := .cls (fun _ => true)

/-- Any character except newline (the dot without DOTALL). -/
def dotCls : RE := .cls (fun c => c ≠ '\n')

/-- Whitespace character class. -/
def wsCls : RE := .cls isPyWs

/-- Three literal dashes. -/
def dashes3 : RE := rstr ['-', '-', '-']

/-!
The regular expressions of MarkdownParser (backend/app/search/markdown_parser.py),
translated pattern by pattern.
-/

/-- Frontmatter pattern, compiled with DOTALL and MULTILINE: caret, three
dashes, whitespace star, newline, lazily captured body, newline, three
dashes, whitespace star, newline. -/
def frontmatterRe : RE :=
  .seq .bol (.seq dashes3 (.seq (.star wsCls) (.seq (rchr '\n')
    (.seq (.grp 1 (.lstar anyCls)) (.seq (rchr '\n') (.seq dashes3
      (.seq (.star wsCls) (rchr '\n'))))))))

/-- Characters allowed in a tag: ASCII letters, digits, underscore, slash,
hyphen. -/
def isTagChar (c : Char) : Bool :=
  ('a' ≤ c && c ≤ 'z') || ('A' ≤ c && c ≤ 'Z') || ('0' ≤ c && c ≤ '9') ||
  c = '_' || c = '/' || c = '-'

/-- Tag pattern: a hash sign followed by a captured nonempty run of tag
characters. -/
def tagRe : RE := .seq (rchr '#') (.grp 1 (rplus (.cls isTagChar)))

/-- Wikilink pattern: two open brackets, captured nonempty run of characters
that are neither close bracket nor pipe, an optional pipe plus alias, two
close brackets. -/
def wikilinkRe : RE :=
  .seq (rchr '[') (.seq (rchr '[')
    (.seq (.grp 1 (rplus (.cls (fun c => c ≠ ']' && c ≠ '|'))))
      (.seq (ropt (.seq (rchr '|') (rplus (.cls (fun c => c ≠ ']')))))
        (.seq (rchr ']') (rchr ']')))))

/-- One to six hash signs, greedy, as a nest of optional continuations. -/
def hashes16 : RE :=
  .seq (rchr '#') (ropt (.seq (rchr '#') (ropt (.seq (rchr '#')
    (ropt (.seq (rchr '#') (ropt (.seq (rchr '#') (ropt (rchr '#'))))))))))

/-- Heading pattern (MULTILINE): caret, captured one-to-six hashes,
whitespace plus, captured nonempty run of non-newline characters, dollar. -/
def headingRe : RE :=
  .seq .bol (.seq (.grp 1 hashes16) (.seq (rplus wsCls)
    (.seq (.grp 2 (rplus dotCls)) .eol)))

/-- Task pattern (MULTILINE): caret, whitespace star, dash or asterisk,
whitespace plus, open bracket, captured x-or-whitespace character, close
bracket, whitespace plus, captured nonempty run of non-newline characters,
dollar. -/
def taskRe : RE :=
  .seq .bol (.seq (.star wsCls) (.seq (.cls (fun c => c = '-' || c = '*'))
    (.seq (rplus wsCls) (.seq (rchr '[')
      (.seq (.grp 1 (.cls (fun c => c = 'x' || isPyWs c))) (.seq (rchr ']')
        (.seq (rplus wsCls) (.seq (.grp 2 (rplus dotCls)) .eol))))))))

/-- Block identifier character class: ASCII letters, digits, hyphen. -/
def isBlockChar (c : Char) : Bool :=
  ('a' ≤ c && c ≤ 'z') || ('A' ≤ c && c ≤ 'Z') || ('0' ≤ c && c ≤ '9') || c = '-'

/-- Block identifier pattern (MULTILINE): a caret character, captured
nonempty run of block characters, whitespace star, dollar. -/
def blockRe : RE :=
  .seq (rchr '^') (.seq (.grp 1 (rplus (.cls isBlockChar))) (.seq (.star wsCls) .eol))

/-- Emphasis pattern used to clean heading text: one or two asterisks,
captured nonempty run of non-asterisk characters, one or two asterisks. -/
def boldRe : RE :=
  .seq (.seq (rchr '*') (ropt (rchr '*')))
    (.seq (.grp 1 (rplus (.cls (fun c => c ≠ '*'))))
      (.seq (rchr '*') (ropt (rchr '*'))))

/-- Backquote character (written by code to keep it out of the source text). -/
def backquote : Char := Char.ofNat 96

/-- Inline-code pattern used to clean heading text. -/
def codeRe : RE :=
  .seq (rchr backquote)
    (.seq (.grp 1 (rplus (.cls (fun c => c ≠ backquote)))) (rchr backquote))

/-- Markdown-link pattern used to clean heading text: bracketed captured
text followed by a parenthesised target. -/
def mdLinkRe : RE :=
  .seq (rchr '[') (.seq (.grp 1 (rplus (.cls (fun c => c ≠ ']'))))
    (.seq (rchr ']') (.seq (rchr '(')
      (.seq (rplus (.cls (fun c => c ≠ ')'))) (rchr ')')))))

/-- Replacement template returning the text of group one (the template that
the heading-cleanup substitutions use). -/
def group1Repl (caps : List (Nat × Str)) : Str :=
  (capLookup 1 caps).getD []

/-- Python str.strip restricted to ASCII whitespace. -/
def stripWs (s : Str) : Str :=
  ((s.dropWhile isPyWs).reverse.dropWhile isPyWs).reverse

/-- Number of the line (1-based) on which a character position falls:
the count of newlines before the position plus one, exactly as the source
computes content[:match.start()].count of newline plus 1. -/
def lineOf (content : Str) (pos : Nat) : Nat :=
  (content.take pos).count '\n' + 1

/-- Removal of every frontmatter-pattern occurrence, as
frontmatter_pattern.sub applied with an empty replacement. -/
def fmSub (content : Str) : Str :=
  reSub frontmatterRe (fun _ => []) content

/-- The captured frontmatter body when the frontmatter pattern matches at the
very start of the content, as frontmatter_pattern.match. -/
def fmGroup (content : Str) : Option Str :=
  (reMatchAt frontmatterRe content none).bind (fun r => capLookup 1 r.2)

/-- Raw tag occurrences: group one of every tag-pattern match after the
frontmatter has been removed. -/
def rawTags (content : Str) : List Str :=
  (reFindIter tagRe (fmSub content)).filterMap (fun m => capLookup 1 m.caps)

/-- Case-insensitive de-duplication that keeps the first-seen spelling of
each tag, mirroring the seen-set loop of extract_tags. -/
def dedupTags (seen : List Str) : List Str → List Str
  | [] => []
  | t :: rest =>
    let tl := t.map Char.toLower
    if tl ∈ seen then dedupTags seen rest
    else t :: dedupTags (tl :: seen) rest

/-- MarkdownParser.extract_tags: remove the frontmatter, scan for tag-pattern
matches, and de-duplicate case-insensitively preserving first-seen order. -/
def extract_tags (content : Str) : List Str :=
  dedupTags [] (rawTags content)

/-- Scalar value inside parsed YAML frontmatter.  A datetime value carries
its ISO-8601 rendering, so that the normalisation step of
extract_frontmatter (datetime values become isoformat strings) is explicit;
the calendar arithmetic of datetime.isoformat itself belongs to the Python
standard library and is not re-implemented. -/
inductive PropVal where
  | vstr : Str → PropVal
  | vdate : Str → PropVal
  | vnull : PropVal
deriving DecidableEq, Repr

/-- Result of the external YAML loader: a mapping, or any non-mapping
document. -/
inductive YamlDoc where
  | mapping : List (Str × PropVal) → YamlDoc
  | notMapping : YamlDoc

/-- Normalisation applied to each frontmatter value: datetime values are
replaced by their ISO-8601 strings, everything else is kept. -/
def normProp : PropVal → PropVal
  | .vdate iso => .vstr iso
  | v => v

/-- MarkdownParser.extract_frontmatter.  The external YAML loader is a
parameter: it may fail (yaml errors are caught and degrade to an empty
mapping) or produce a non-mapping document (discarded).  When the
frontmatter pattern does not match at the start of the content the result is
empty. -/
def extract_frontmatter (yamlLoad : Str → Except Unit YamlDoc) (content : Str) :
    List (Str × PropVal) :=
  match fmGroup content with
  | none => []
  | some g =>
    match yamlLoad g with
    | .error _ => []
    | .ok .notMapping => []
    | .ok (.mapping ps) => ps.map (fun kv => (kv.1, normProp kv.2))

/-- One extracted heading: level, cleaned text, 1-based line number. -/
structure Heading where
  level : Nat
  text : Str
  line : Nat
deriving DecidableEq, Repr

/-- Cleanup applied to heading text: strip, then remove emphasis markup,
then inline-code markup, then markdown-link markup, each by substitution
with the group-one template. -/
def cleanHeadingText (t : Str) : Str :=
  reSub mdLinkRe group1Repl (reSub codeRe group1Repl (reSub boldRe group1Repl (stripWs t)))

/-- MarkdownParser.extract_headings. -/
def extract_headings (content : Str) : List Heading :=
  (reFindIter headingRe content).filterMap (fun m =>
    match capLookup 1 m.caps, capLookup 2 m.caps with
    | some g1, some g2 =>
      some ⟨g1.length, cleanHeadingText g2, lineOf content m.start⟩
    | _, _ => none)

/-- Suffix dot-md used by the wikilink normalisation and the reindex loop. -/
def mdSuffix : Str := ['.', 'm', 'd']

/-- Exact de-duplication preserving first-seen order (the seen-set loop of
extract_links). -/
def dedupExact (seen : List Str) : List Str → List Str
  | [] => []
  | t :: rest =>
    if t ∈ seen then dedupExact seen rest
    else t :: dedupExact (t :: seen) rest

/-- MarkdownParser.extract_links: wikilink targets, stripped, given a dot-md
suffix when absent, de-duplicated preserving first-seen order. -/
def extract_links (content : Str) : List Str :=
  let targets := (reFindIter wikilinkRe content).filterMap (fun m =>
    (capLookup 1 m.caps).map (fun g =>
      let t := stripWs g
      if mdSuffix.isSuffixOf t then t else t ++ mdSuffix))
  dedupExact [] targets

/-- One extracted task item: checkbox state, text, 1-based line number. -/
structure TaskItem where
  done : Bool
  text : Str
  line : Nat
deriving DecidableEq, Repr

/-- MarkdownParser.extract_tasks. -/
def extract_tasks (content : Str) : List TaskItem :=
  (reFindIter taskRe content).filterMap (fun m =>
    match capLookup 1 m.caps, capLookup 2 m.caps with
    | some g1, some g2 =>
      some ⟨g1.map Char.toLower = ['x'], stripWs g2, lineOf content m.start⟩
    | _, _ => none)

/-- MarkdownParser.extract_blocks.  The source converts the collected list
through a Python set, whose iteration order is unspecified; the embedding
de-duplicates preserving first-seen order (the claims never depend on the
order of block identifiers). -/
def extract_blocks (content : Str) : List Str :=
  dedupExact [] ((reFindIter blockRe content).filterMap (fun m => capLookup 1 m.caps))

/-- Everything MarkdownParser.parse extracts. -/
structure Metadata where
  tags : List Str
  props : List (Str × PropVal)
  headings : List Heading
  links : List Str
  tasks : List TaskItem
  blocks : List Str

/-- MarkdownParser.parse: each sub-field is extracted independently from the
full content; the only fallible step, the external YAML load inside
extract_frontmatter, is caught there and degrades to an empty mapping (the
remaining extractors are total regex scans). -/
def parse (yamlLoad : Str → Except Unit YamlDoc) (content : Str) : Metadata :=
  { tags := extract_tags content
    props := extract_frontmatter yamlLoad content
    headings := extract_headings content
    links := extract_links content
    tasks := extract_tasks content
    blocks := extract_blocks content }

/-!
Index store and incremental indexer (backend/app/search/indexer.py together
with the schema of backend/app/search/whoosh_schema.py).  The embedded index
is the list of its document records; the Whoosh writer is the external
collaborator of the specification, so its update_document (upsert by the
unique path key) and delete_by_term operations are modelled from the spec as
remove-then-append and as filtering on the path field.
-/

/-- Python datetime value: an instant rendered as an integer, plus whether
the value is timezone-aware.  For an aware value the integer is the UTC
instant; for a naive value it is the wall-clock reading, and the explicit
upgrade replace-tzinfo-utc reinterprets the same reading as UTC, keeping the
integer and setting the aware flag. -/
structure PyDatetime where
  value : Int
  aware : Bool
deriving DecidableEq, Repr

/-- Result of datetime.now(): a naive local timestamp (no tzinfo).  The
clock reading is a parameter; the naivety is a fact of the Python call. -/
def datetime_now (clock : Int) : PyDatetime := ⟨clock, false⟩

/-- Explicit upgrade of a naive timestamp to UTC, as
replace-tzinfo-timezone-utc in the reindex loop. -/
def upgradeToUtc (d : PyDatetime) : PyDatetime :=
  if d.aware then d else ⟨d.value, true⟩

/-- One document record of the index, with the fields of the Whoosh schema
(path is the unique key; tags and props are stored in their flattened
comma-joined string forms; content and the trigram source are kept so that
the modelled searcher can evaluate queries; size is the content length). -/
structure IndexDoc where
  path : Str
  name : Str
  tags : Str
  props : Str
  content : Str
  tri : Str
  mtime : PyDatetime
  size : Nat
deriving DecidableEq, Repr

/-- The index is the list of its document records. -/
abbrev IndexState := List IndexDoc

/-- Writer update_document keyed by the unique path field, modelled from the
spec's index-store contract (upsert by unique key, last write wins): every
existing record with the same path is removed, then the new record is
appended. -/
def update_document (d : IndexDoc) (st : IndexState) : IndexState :=
  st.filter (fun e => e.path ≠ d.path) ++ [d]

/-- Comma-join of a list of strings. -/
def joinComma : List Str → Str
  | [] => []
  | [s] => s
  | s :: rest => s ++ ',' :: joinComma rest

/-- String rendering of a property value (str of the value in the k=v
f-string). -/
def propValStr : PropVal → Str
  | .vstr s => s
  | .vdate iso => iso
  | .vnull => ['N', 'o', 'n', 'e']

/-- Arguments of one MarkdownIndexer.upsert_document call.  The clock field
is the reading datetime.now() would return if the optional mtime is absent. -/
structure UpsertArgs where
  path : Str
  content : Str
  name : Str
  tags : List Str
  props : List (Str × PropVal)
  mtime : Option PyDatetime
  clock : Int
deriving DecidableEq, Repr

/-- MarkdownIndexer.upsert_document: flatten tags to a comma-joined string
(empty when the list is empty), flatten props to comma-joined k=v pairs
skipping None values, write one update_document keyed by path with the
content as trigram source, the given mtime or a naive datetime.now() as
fallback, and the content length as size; commit and report success.  (The
logged-failure branch of the source is the external writer raising, outside
the embedded state semantics; the embedding returns the success path.) -/
def upsert_document (a : UpsertArgs) (st : IndexState) : Bool × IndexState :=
  let tags_str := if a.tags = [] then [] else joinComma a.tags
  let props_str := joinComma ((a.props.filter (fun kv => kv.2 ≠ .vnull)).map
    (fun kv => kv.1 ++ '=' :: propValStr kv.2))
  let d : IndexDoc :=
    { path := a.path
      name := a.name
      tags := tags_str
      props := props_str
      content := a.content
      tri := a.content
      mtime := a.mtime.getD (datetime_now a.clock)
      size := a.content.length }
  (true, update_document d st)

/-- MarkdownIndexer.delete_document: delete every record whose path field
equals the given path (delete_by_term on path), commit and report success. -/
def delete_document (path : Str) (st : IndexState) : Bool × IndexState :=
  (true, st.filter (fun d => d.path ≠ path))

/-!
Query planner (backend/app/search/api.py).  ServerTerm is the tagged term
variant; WQuery is the Whoosh query tree the planner produces.  Whether the
external Regex query constructor raises for a given pattern is a parameter
(the source wraps the construction in a try block); the external
QueryParser.parse of a word term never raises (it produces a best-effort
parse for any input, per the specification's query-error contract) and is
embedded as an opaque parsed-query leaf carrying the raw text.
-/

/-- One search term as received by the search endpoint.  The sub-term of a
line term is either present or absent (a missing or empty sub dictionary is
falsy in the source and contributes nothing); a term whose type string is
none of word, phrase, regex, line is the other case. -/
inductive ServerTerm where
  | word : Option Str → ServerTerm
  | phraseT : Option Str → ServerTerm
  | regexT : (value : Option Str) → (flags : Option Str) → ServerTerm
  | lineT : ServerTerm → ServerTerm
  | lineNone : ServerTerm
  | other : ServerTerm
deriving DecidableEq, Repr

mutual
/-- Whoosh query tree produced by the planner, together with the clause
lists of its AND and OR nodes (a separate list type keeps every recursion
over queries structural). -/
inductive WQuery where
  | every : WQuery
  | term : Str → Str → WQuery
  | phrase : Str → List Str → WQuery
  | regexq : (field : Str) → (pattern : Str) → (flags : Nat) → WQuery
  | parsedq : Str → Str → WQuery
  | andq : WQList → WQuery
  | orq : WQList → WQuery

inductive WQList where
  | nil : WQList
  | cons : WQuery → WQList → WQList
end

/-- Clause-list conversion. -/
def WQList.ofList : List WQuery → WQList
  | [] => .nil
  | q :: qs => .cons q (WQList.ofList qs)

/-- The content field name. -/
def contentField : Str := ['c', 'o', 'n', 't', 'e', 'n', 't']

/-- The trigram field name. -/
def triField : Str := ['t', 'r', 'i']

/-- The path field name. -/
def pathField : Str := ['p', 'a', 't', 'h']

/-- The regex metacharacters at which extract_regex_prefix stops scanning:
the characters of the raw Python string dot star plus question brackets
braces parens pipe backslash caret dollar.  The backslash is a member, which
makes the escape-handling branch of the loop unreachable. -/
def regexMetaChars : Str :=
  ['.', '*', '+', '?', '[', ']', Char.ofNat 123, Char.ofNat 125,
   '(', ')', '|', '\\', '^', '$']

/-- extract_regex_prefix of backend/app/search/api.py: scan the pattern's
leading characters, stopping at the first metacharacter; the escape branch
(backslash followed by another character) is kept exactly as written even
though the metacharacter test in front of it already stops at a backslash. -/
def extract_regex_pfx : Str → Str
  | [] => []
  | [c] => if regexMetaChars.contains c then [] else [c]
  | c :: d :: rest =>
    if regexMetaChars.contains c then []
    else if c = '\\' then d :: extract_regex_pfx rest
    else c :: extract_regex_pfx (d :: rest)

/-- Regex flag bits: IGNORECASE is 2 and MULTILINE is 8, combined exactly as
the source ors them together from the flag string. -/
def flagsToRe (flags : Str) : Nat :=
  (if flags.contains 'i' then 2 else 0) ||| (if flags.contains 'm' then 8 else 0)

/-- Python str.split with no separator: split on whitespace runs, dropping
empty pieces. -/
def pySplitAux : Str → Str → List Str
  | [], cur => if cur = [] then [] else [cur.reverse]
  | c :: rest, cur =>
    if isPyWs c then
      if cur = [] then pySplitAux rest [] else cur.reverse :: pySplitAux rest []
    else pySplitAux rest (c :: cur)

/-- Whitespace split entry point. -/
def pySplit (s : Str) : List Str := pySplitAux s []

/-- Combine a clause list as the tail of build_whoosh_query does: no clause
gives the match-everything query, one clause is returned bare, several are
combined with logical AND. -/
def assembleQuery : List WQuery → WQuery
  | [] => .every
  | [q] => q
  | qs => .andq (WQList.ofList qs)

/-- Clauses contributed by one term in the loop of build_whoosh_query.
compiles tells whether the external Regex constructor accepts a pattern
(the source catches the raised exception and drops only the regex clause).
A word term becomes a parsed content query on its value (empty when the
value is absent); a phrase term whitespace-splits its value; a regex term
first appends a trigram-equality clause on the first three characters of
its extracted literal prefix lowercased whenever that prefix has length at
least three, and then the regex clause itself if the pattern compiles; a
line term contributes the composite query of its sub-term (the recursive
build_whoosh_query call on the one-element list); an absent sub-term or an
unrecognised type contributes nothing. -/
def termClauses (compiles : Str → Nat → Bool) : ServerTerm → List WQuery
  | .word v => [.parsedq contentField (v.getD [])]
  | .phraseT v => [.phrase contentField (pySplit (v.getD []))]
  | .regexT v f =>
    let pattern := v.getD []
    let flags := f.getD []
    let pfx := extract_regex_pfx pattern
    let rf := flagsToRe flags
    (if 3 ≤ pfx.length then [WQuery.term triField ((pfx.take 3).map Char.toLower)] else [])
      ++ (if compiles pattern rf then [WQuery.regexq contentField pattern rf] else [])
  | .lineT s => [assembleQuery (termClauses compiles s)]
  | .lineNone => []
  | .other => []

/-- build_whoosh_query of backend/app/search/api.py: an empty term list is
the match-everything query; otherwise the per-term clauses are collected in
order and combined by assembleQuery. -/
def build_whoosh_query (compiles : Str → Nat → Bool) (terms : List ServerTerm) : WQuery :=
  match terms with
  | [] => .every
  | _ :: _ => assembleQuery (terms.flatMap (termClauses compiles))

/-!
Modelled searcher.  The Whoosh index store and the re module are the
external collaborators of the specification; the semantics below are
modelled from the spec: the trigram field of a document holds the
three-character windows of its content lowercased (the fixed-width n-gram
analyzer); a regex content clause matches a document whenever the pattern
matches somewhere in its content; AND is conjunction over all clauses, OR is
disjunction; a phrase clause requires its words as an adjacent sub-sequence
of the whitespace tokens of the content; a parsed word clause requires every
word of its text among those tokens (the stemming of the content analyzer is
not re-implemented — no claim depends on stem equalities). -/

/-- Modelled from the spec: parser for the fragment of Python regex syntax
exercised by the claims (literal characters, the dot, greedy star and
question-mark postfixes, alternation).  Patterns outside the fragment are
rejected, and a rejected pattern matches nothing. -/
def parseAtomBase : Str → Option (RE × Str)
  | [] => none
  | c :: rest =>
    if c = '.' then some (dotCls, rest)
    else if regexMetaChars.contains c then none
    else some (rchr c, rest)

/-- Sequence layer of the pattern parser: atoms with optional postfix. -/
def parseSeqRe : Nat → Str → Option (RE × Str)
  | 0, _ => none
  | fuel + 1, s =>
    match s with
    | [] => some (.eps, [])
    | c :: _ =>
      if c = '|' then some (.eps, s)
      else
        match parseAtomBase s with
        | none => none
        | some (a, rest) =>
          let step : RE × Str :=
            match rest with
            | '?' :: r2 => (ropt a, r2)
            | '*' :: r2 => (.star a, r2)
            | _ => (a, rest)
          match parseSeqRe fuel step.2 with
          | some (b, rest2) => some (.seq step.1 b, rest2)
          | none => none

/-- Alternation layer of the pattern parser. -/
def parseAltRe : Nat → Str → Option (RE × Str)
  | 0, _ => none
  | fuel + 1, s =>
    match parseSeqRe (s.length + 1) s with
    | none => none
    | some (a, rest) =>
      match rest with
      | '|' :: r2 =>
        match parseAltRe fuel r2 with
        | some (b, rest2) => some (.alt a b, rest2)
        | none => none
      | _ => some (a, rest)

/-- Pattern parser entry point: the whole pattern must be consumed. -/
def parseRePattern (p : Str) : Option RE :=
  match parseAltRe (p.length + 1) p with
  | some (r, []) => some r
  | _ => none

/-- Modelled from the spec: re.search semantics over the supported pattern
fragment.  The IGNORECASE bit lowers both the pattern and the text. -/
def pyRegexSearch (p : Str) (flags : Nat) (text : Str) : Bool :=
  let ignore := flags &&& 2 ≠ 0
  let p' := if ignore then p.map Char.toLower else p
  let t' := if ignore then text.map Char.toLower else text
  match parseRePattern p' with
  | none => false
  | some r => !(reFindIter r t').isEmpty

/-- Three-character windows of a string. -/
def windows3 : Str → List Str
  | a :: b :: c :: rest => [a, b, c] :: windows3 (b :: c :: rest)
  | _ => []

/-- Trigrams of a document's trigram source: the three-character windows of
the lowercased text (the n-gram analyzer lowercases each gram). -/
def trigramsOf (s : Str) : List Str :=
  windows3 (s.map Char.toLower)

/-- Document as the modelled searcher sees it. -/
structure WDoc where
  path : Str
  content : Str
deriving DecidableEq, Repr

/-- Lowercased whitespace tokens of a content string. -/
def tokensOf (s : Str) : List Str :=
  (pySplit s).map (fun w => w.map Char.toLower)

/-- Whether the first list occurs as a contiguous run inside the second. -/
def isRunOf (p : List Str) : List Str → Bool
  | [] => p.isEmpty
  | a :: rest => (p.isPrefixOf (a :: rest)) || isRunOf p rest

mutual
/-- Modelled from the spec: whether one document satisfies a query (execAll
and execAny evaluate AND and OR clause lists). -/
def execQuery : WQuery → WDoc → Bool
  | .every, _ => true
  | .term f t, d =>
    if f = pathField then d.path == t
    else if f = triField then (trigramsOf d.content).contains t
    else false
  | .phrase f ws, d => f == contentField && isRunOf ws (tokensOf d.content)
  | .regexq f p fl, d => f == contentField && pyRegexSearch p fl d.content
  | .parsedq f t, d =>
    f == contentField && (tokensOf t).all (fun w => (tokensOf d.content).contains w)
  | .andq qs, d => execAll qs d
  | .orq qs, d => execAny qs d

def execAll : WQList → WDoc → Bool
  | .nil, _ => true
  | .cons q rest, d => execQuery q d && execAll rest d

def execAny : WQList → WDoc → Bool
  | .nil, _ => false
  | .cons q rest, d => execQuery q d || execAny rest d
end

/-- Hit set of a query over a corpus, in corpus order. -/
def searchDocs (docs : List WDoc) (q : WQuery) : List WDoc :=
  docs.filter (fun d => execQuery q d)

/-!
Pagination of the search endpoint (backend/app/search/api.py, search).  The
searcher is asked for limit plus offset results (the ranked prefix of the
full stable match list, whose total length the Results object reports), and
the endpoint slices the window from offset to offset plus limit.
-/

/-- The hits and total of one search call: ranked is the full stable ranked
match list of the query; the searcher call fetches the first limit plus
offset entries, the response slices that window from offset to offset plus
limit and reports the full match count as total. -/
def searchPage (ranked : List α) (limit offst : Nat) : List α × Nat :=
  (((ranked.take (limit + offst)).drop offst).take limit, ranked.length)

/-!
Bulk reindex loop (backend/app/main.py, auto_index_all_files): for every
markdown file, compare the stored mtime (upgraded to UTC when naive) with
the file's current mtime and skip the file unless it is stale; otherwise
extract metadata and upsert.  The surrounding I/O (vault walking, file
reading, the per-document exception counters) stays outside the embedded
state semantics; the embedded pass receives the already-listed files with
their parsed timezone-aware mtimes and contents.
-/

/-- Last path segment: path.split on slash, last element, when the path
contains a slash; the path itself otherwise. -/
def splitSlash : Str → List Str
  | [] => [[]]
  | c :: rest =>
    if c = '/' then [] :: splitSlash rest
    else
      match splitSlash rest with
      | s :: ss => (c :: s) :: ss
      | [] => [[c]]

/-- Display name derived from a path (extract_for_indexing). -/
def nameOfPath (p : Str) : Str :=
  if p.contains '/' then ((splitSlash p).getLast?).getD p else p

/-- extract_metadata_for_index of backend/app/search/markdown_parser.py:
parse the content and keep the name, tags and props the indexer needs. -/
def extract_metadata_for_index (yamlLoad : Str → Except Unit YamlDoc)
    (content : Str) (path : Str) : Str × List Str × List (Str × PropVal) :=
  let md := parse yamlLoad content
  (nameOfPath path, md.tags, md.props)

/-- One file as the reindex loop sees it: its vault path, its current
modification time already parsed to an aware UTC datetime (the loop's
fromisoformat followed by astimezone-utc), and its content. -/
structure VaultFile where
  path : Str
  mtime : PyDatetime
  content : Str
deriving DecidableEq, Repr

/-- Counters the reindex loop accumulates. -/
structure ReindexCounts where
  indexed : Nat
  skipped : Nat
  errors : Nat
deriving DecidableEq, Repr

/-- One iteration of the per-file loop of auto_index_all_files: non-markdown
paths are passed over without touching any counter; for a markdown path, if
an indexed mtime exists then it is upgraded to UTC when naive and the file
is skipped (skipped counter incremented, no upsert) whenever the file mtime
is not greater; otherwise the metadata is extracted and the document
upserted with the file mtime, incrementing the indexed counter. -/
def reindexStep (yamlLoad : Str → Except Unit YamlDoc)
    (indexedDocs : Str → Option PyDatetime) (clock : Int)
    (acc : ReindexCounts × IndexState) (f : VaultFile) : ReindexCounts × IndexState :=
  if ¬ mdSuffix.isSuffixOf f.path then acc
  else
    let doIndex : ReindexCounts × IndexState :=
      let meta := extract_metadata_for_index yamlLoad f.content f.path
      let st' := (upsert_document
        { path := f.path
          content := f.content
          name := meta.1
          tags := meta.2.1
          props := meta.2.2
          mtime := some f.mtime
          clock := clock } acc.2).2
      ({ acc.1 with indexed := acc.1.indexed + 1 }, st')
    match indexedDocs f.path with
    | some im =>
      if f.mtime.value ≤ (upgradeToUtc im).value then
        ({ acc.1 with skipped := acc.1.skipped + 1 }, acc.2)
      else doIndex
    | none => doIndex

/-- The whole per-file pass of auto_index_all_files over a file listing,
starting from zeroed counters and the current index state. -/
def auto_index_pass (yamlLoad : Str → Except Unit YamlDoc)
    (indexedDocs : Str → Option PyDatetime) (clock : Int)
    (files : List VaultFile) (st : IndexState) : ReindexCounts × IndexState :=
  files.foldl (reindexStep yamlLoad indexedDocs clock) (⟨0, 0, 0⟩, st)

/-- The metacharacter list named by claim C1, which does not include the
backslash. -/
def claimMetaChars : Str :=
  ['.', '*', '+', '?', '[', ']', Char.ofNat 123, Char.ofNat 125,
   '(', ')', '|', '^', '$']

/-- Follows the claim's words (claim C1), for comparison with the source's
extract_regex_pfx: scan the pattern's leading characters until a
metacharacter of claimMetaChars is hit, treating a backslash-escaped
character as that literal character. -/
def claimed_regex_literal_pfx : Str → Str
  | [] => []
  | [c] => if claimMetaChars.contains c then [] else [c]
  | c :: d :: rest =>
    if claimMetaChars.contains c then []
    else if c = '\\' then d :: claimed_regex_literal_pfx rest
    else c :: claimed_regex_literal_pfx (d :: rest)

/-- Sequential application of a list of upsert calls to an index state. -/
def applyUpserts (st : IndexState) (ops : List UpsertArgs) : IndexState :=
  ops.foldl (fun s a => (upsert_document a s).2) st

/-!
Theorems.
-/

/-- The prefix scan of the source is the longest leading run of
non-metacharacters: the escape branch is unreachable because the backslash
is itself in the metacharacter set. -/
theorem extract_regex_pfx_eq_takeWhile (p : Str) :
    extract_regex_pfx p = p.takeWhile (fun c => !(regexMetaChars.contains c)) := by
  induction p with
  | nil => rfl
  | cons c rest ih =>
    cases rest with
    | nil =>
      by_cases h : c ∈ regexMetaChars <;>
        simp [extract_regex_pfx, List.takeWhile, h]
    | cons d rest2 =>
      by_cases h : c ∈ regexMetaChars
      · simp [extract_regex_pfx, List.takeWhile, h]
      · have hc : c ≠ '\\' := by
          intro hcc
          rw [hcc] at h
          exact h (by decide)
        simp [extract_regex_pfx, List.takeWhile, h, hc, ih]

/-- Claim C1, counterexample: the planner does not treat a backslash-escaped
character as a literal.  For the pattern ab-backslash-cd the claim's scan
yields the four-character prefix abcd, long enough that the claim demands a
trigram prefilter clause; but the source's scan stops at the backslash,
extracts only ab, and the composite query built for the term is the bare
regex clause with no trigram clause at all. -/
theorem C1_counterexample :
    claimed_regex_literal_pfx ("ab\\cd".toList) = "abcd".toList ∧
    3 ≤ (claimed_regex_literal_pfx ("ab\\cd".toList)).length ∧
    extract_regex_pfx ("ab\\cd".toList) = "ab".toList ∧
    build_whoosh_query (fun _ _ => true) [.regexT (some ("ab\\cd".toList)) none] =
      .regexq contentField ("ab\\cd".toList) 0 :=
  ⟨rfl, by decide, rfl, rfl⟩

/-- Claim C1, amended: the literal prefix is extracted by scanning the
pattern's leading characters until a metacharacter is hit, where the
backslash itself is one of the terminating metacharacters (a backslash
escape is never entered); and the trigram-equality clause on the first three
characters of that prefix lowercased is among the clauses the planner emits
for a regex term if and only if the prefix has length at least 3. -/
theorem C1_amended_prefix_rule (compiles : Str → Nat → Bool) (v f : Option Str) :
    extract_regex_pfx (v.getD []) =
      (v.getD []).takeWhile (fun c => !(regexMetaChars.contains c)) ∧
    (WQuery.term triField (((extract_regex_pfx (v.getD [])).take 3).map Char.toLower)
        ∈ termClauses compiles (.regexT v f)
      ↔ 3 ≤ (extract_regex_pfx (v.getD [])).length) := by
  refine ⟨extract_regex_pfx_eq_takeWhile _, ?_⟩
  simp only [termClauses]
  by_cases h3 : 3 ≤ (extract_regex_pfx (v.getD [])).length
  · simp [h3]
  · simp only [h3, if_false, List.nil_append, iff_false]
    intro hmem
    by_cases hc : compiles (v.getD []) (flagsToRe (f.getD [])) <;>
      simp [hc] at hmem

/-- Claim C2: the trigram prefilter changes the hit set.  For the regex term
abc-question-d the extracted prefix is abc, so the planner conjoins a
trigram clause on abc; a document whose content is abd matches the regex
(the c is optional) but does not contain the trigram abc, so the composite
query with the prefilter returns no hits while the bare regex clause
returns the document. -/
theorem C2_prefilter_excludes_matching_document :
    extract_regex_pfx ("abc?d".toList) = "abc".toList ∧
    build_whoosh_query (fun _ _ => true) [.regexT (some ("abc?d".toList)) none] =
      .andq (.cons (.term triField ("abc".toList))
        (.cons (.regexq contentField ("abc?d".toList) 0) .nil)) ∧
    searchDocs [⟨"a.md".toList, "abd".toList⟩]
      (build_whoosh_query (fun _ _ => true) [.regexT (some ("abc?d".toList)) none]) = [] ∧
    searchDocs [⟨"a.md".toList, "abd".toList⟩]
      (WQuery.regexq contentField ("abc?d".toList) 0) =
      [⟨"a.md".toList, "abd".toList⟩] :=
  ⟨rfl, rfl, rfl, rfl⟩

/-- Claim C8: pagination is emulated by over-fetching.  The endpoint asks
the searcher for limit plus offset results and slices the window from
offset to offset plus limit, reporting the full match-set size as total;
for a fixed stable ranked match list the hits of two consecutive pages of
size k concatenate to the hits of one page of size 2k. -/
theorem C8_pagination_over_fetch (ranked : List α) (k : Nat) :
    (searchPage ranked k 0).1 ++ (searchPage ranked k k).1 =
      (searchPage ranked (2 * k) 0).1 ∧
    (searchPage ranked k 0).2 = ranked.length ∧
    (searchPage ranked k k).2 = ranked.length := by
  refine ⟨?_, rfl, rfl⟩
  simp only [searchPage, Nat.add_zero, List.drop_zero]
  rw [List.take_take, Nat.min_self, List.take_take, Nat.min_self]
  rw [List.drop_take (k + k) k ranked]
  have h2 : k + k - k = k := by omega
  rw [h2, List.take_take, Nat.min_self, Nat.two_mul, List.take_add]

/-- Claim C9: the default mtime stored by upsert is naive.  When the caller
supplies no mtime, upsert_document stores datetime.now(), a naive local
timestamp, not a timezone-aware UTC one: the single record written by a
concrete upsert without mtime carries an mtime whose aware flag is false. -/
theorem C9_default_mtime_is_naive :
    ((upsert_document
        { path := "n.md".toList, content := "hi".toList, name := "n.md".toList,
          tags := [], props := [], mtime := none, clock := 1735689600 } []).2.map
      (fun d => d.mtime)) = [datetime_now 1735689600] ∧
    (datetime_now 1735689600).aware = false :=
  ⟨rfl, rfl⟩

/-- One upsert leaves exactly one record with the upserted path, whatever
the prior state held. -/
theorem upsert_count_one (a : UpsertArgs) (st : IndexState) :
    ((upsert_document a st).2.countP (fun d => d.path == a.path)) = 1 := by
  simp only [upsert_document, update_document]
  rw [List.countP_append]
  have h0 : ((st.filter (fun e => decide (e.path ≠ a.path))).countP
      (fun d => d.path == a.path)) = 0 := by
    rw [List.countP_eq_zero]
    intro x hx
    rw [List.mem_filter] at hx
    simpa using hx.2
  rw [h0]
  simp

/-- Claim C3: path uniqueness under upserts.  After any nonempty sequence of
upserts to a path p, exactly one record with path p exists in the index
(last write wins); and upserting the same arguments twice leaves the
document count unchanged. -/
theorem C3_upsert_uniqueness :
    (∀ (st : IndexState) (ops : List UpsertArgs) (p : Str),
      ops ≠ [] → (∀ a ∈ ops, a.path = p) →
      ((applyUpserts st ops).countP (fun d => d.path == p)) = 1) ∧
    (∀ (a : UpsertArgs) (st : IndexState),
      ((upsert_document a (upsert_document a st).2).2).length =
        ((upsert_document a st).2).length) := by
  constructor
  · intro st ops
    induction ops generalizing st with
    | nil => intro p h _; exact absurd rfl h
    | cons a rest ih =>
      intro p _ hall
      cases rest with
      | nil =>
        have hp : a.path = p := hall a (by simp)
        subst hp
        exact upsert_count_one a st
      | cons b rest2 =>
        have : applyUpserts st (a :: b :: rest2) =
            applyUpserts ((upsert_document a st).2) (b :: rest2) := rfl
        rw [this]
        exact ih ((upsert_document a st).2) p (by simp)
          (fun x hx => hall x (List.mem_cons_of_mem a hx))
  · intro a st
    simp only [upsert_document, update_document]
    rw [List.filter_append, List.filter_filter]
    simp

/-- Witness for claim C3 at a concrete input. -/
theorem C3_witness :
    ((applyUpserts []
      [{ path := "a.md".toList, content := "x".toList, name := "a".toList,
         tags := [], props := [], mtime := none, clock := 0 }]).countP
      (fun d => d.path == "a.md".toList)) = 1 :=
  C3_upsert_uniqueness.1 []
    [{ path := "a.md".toList, content := "x".toList, name := "a".toList,
       tags := [], props := [], mtime := none, clock := 0 }]
    ("a.md".toList) (by simp) (by decide)

/-- Claim C10: delete removes exactly the records with the given path (and
reports success), and deleting an absent path leaves the index unchanged. -/
theorem C10_delete_frame :
    (∀ (st : IndexState) (p : Str),
      (delete_document p st).1 = true ∧
      (∀ d ∈ st, d.path ≠ p → d ∈ (delete_document p st).2) ∧
      (∀ d ∈ (delete_document p st).2, d ∈ st ∧ d.path ≠ p)) ∧
    (∀ (st : IndexState) (p : Str), (∀ d ∈ st, d.path ≠ p) →
      (delete_document p st).2 = st) := by
  constructor
  · intro st p
    refine ⟨rfl, ?_, ?_⟩
    · intro d hd hne
      simp only [delete_document]
      rw [List.mem_filter]
      exact ⟨hd, by simpa using hne⟩
    · intro d hd
      simp only [delete_document] at hd
      rw [List.mem_filter] at hd
      exact ⟨hd.1, by simpa using hd.2⟩
  · intro st p h
    simp only [delete_document]
    rw [List.filter_eq_self]
    intro a ha
    simpa using h a ha

/-- Witness for claim C10 at a concrete input: deleting a path that is not
in the index leaves the single existing record in place. -/
theorem C10_witness :
    (delete_document ("b.md".toList)
      [{ path := "a.md".toList, name := "a".toList, tags := [], props := [],
         content := [], tri := [], mtime := ⟨0, true⟩, size := 0 }]).2 =
      [{ path := "a.md".toList, name := "a".toList, tags := [], props := [],
         content := [], tri := [], mtime := ⟨0, true⟩, size := 0 }] :=
  C10_delete_frame.2
    [{ path := "a.md".toList, name := "a".toList, tags := [], props := [],
       content := [], tri := [], mtime := ⟨0, true⟩, size := 0 }]
    ("b.md".toList) (by decide)

/-- Claim C6, counterexample: a malformed regex term does not contribute
nothing.  For the invalid pattern abcdef-openbracket (an unterminated
character set, so the external Regex constructor raises and the source
drops the regex clause), the extracted prefix abcdef still produces a
trigram clause, and the composite query for the single term is exactly that
trigram clause — the malformed term contributed a clause after all. -/
theorem C6_counterexample :
    build_whoosh_query (fun _ _ => false) [.regexT (some ("abcdef[".toList)) none] =
      .term triField ("abc".toList) ∧
    termClauses (fun _ _ => false) (.regexT (some ("abcdef[".toList)) none) ≠ [] :=
  ⟨rfl, List.cons_ne_nil _ _⟩

/-- Claim C6, amended: a regex term whose pattern the external Regex
constructor rejects contributes no regex clause and never aborts the other
terms of the search, but its trigram prefilter clause (present exactly when
the extracted literal prefix has length at least 3) is still added before
the failed construction is caught; the clause list of the whole request is
the clause lists of the surrounding terms with only that possible trigram
clause in between.  (Word terms are parsed by the external query parser,
which is total and falls back to a best-effort literal parse, as the
parsedq leaf of the embedding records.) -/
theorem C6_amended_malformed_regex (compiles : Str → Nat → Bool)
    (ts1 ts2 : List ServerTerm) (v f : Option Str)
    (h : compiles (v.getD []) (flagsToRe (f.getD [])) = false) :
    (ts1 ++ .regexT v f :: ts2).flatMap (termClauses compiles) =
      ts1.flatMap (termClauses compiles) ++
      (if 3 ≤ (extract_regex_pfx (v.getD [])).length
       then [WQuery.term triField (((extract_regex_pfx (v.getD [])).take 3).map Char.toLower)]
       else []) ++
      ts2.flatMap (termClauses compiles) := by
  rw [List.flatMap_append]
  have hc : (ServerTerm.regexT v f :: ts2).flatMap (termClauses compiles) =
      termClauses compiles (.regexT v f) ++ ts2.flatMap (termClauses compiles) := rfl
  rw [hc]
  simp only [termClauses, h, Bool.false_eq_true, if_false, List.append_nil,
    List.append_assoc]

/-- Witness for claim C6 at a concrete input: a rejected pattern with a long
literal prefix surrounded by no other term on the left and one word term on
the right. -/
theorem C6_witness :
    (([] ++ ServerTerm.regexT (some ("abcdef[".toList)) none ::
        [ServerTerm.word (some ("hi".toList))]).flatMap
      (termClauses (fun _ _ => false))) =
      (([] : List ServerTerm).flatMap (termClauses (fun _ _ => false)) ++
        (if 3 ≤ (extract_regex_pfx ((some ("abcdef[".toList)).getD [])).length
         then [WQuery.term triField
           (((extract_regex_pfx ((some ("abcdef[".toList)).getD [])).take 3).map Char.toLower)]
         else []) ++
        [ServerTerm.word (some ("hi".toList))].flatMap (termClauses (fun _ _ => false))) :=
  C6_amended_malformed_regex (fun _ _ => false) [] [ServerTerm.word (some ("hi".toList))]
    (some ("abcdef[".toList)) none rfl

/-- Claim C4, counterexample: extracted tags are not lowercase-normalized.
For content containing the tag Foo (capitalised) before the tag foo, the
extraction returns the single entry in its first-seen original casing Foo,
not the lowercase foo the claim states. -/
theorem C4_counterexample :
    extract_tags ("#Foo and #foo".toList) = [['F', 'o', 'o']] ∧
    (['F', 'o', 'o'] : Str) ≠ "foo".toList :=
  ⟨rfl, by decide⟩

/-- De-duplication returns a subsequence of its input. -/
theorem dedupTags_sublist (l : List Str) : ∀ seen, (dedupTags seen l).Sublist l := by
  induction l with
  | nil => intro seen; simp [dedupTags]
  | cons t rest ih =>
    intro seen
    simp only [dedupTags]
    by_cases h : (t.map Char.toLower) ∈ seen
    · simp only [h, if_true]
      exact (ih seen).cons t
    · simp only [h, if_false]
      exact (ih _).cons₂ t

/-- The lowered images of the de-duplicated tags are distinct and avoid the
seen set. -/
theorem dedupTags_lower_nodup (l : List Str) : ∀ seen,
    ((dedupTags seen l).map (fun t => t.map Char.toLower)).Nodup ∧
    (∀ x ∈ (dedupTags seen l).map (fun t => t.map Char.toLower), x ∉ seen) := by
  induction l with
  | nil => intro seen; simp [dedupTags]
  | cons t rest ih =>
    intro seen
    simp only [dedupTags]
    by_cases h : (t.map Char.toLower) ∈ seen
    · simpa [h] using ih seen
    · obtain ⟨h1, h2⟩ := ih (t.map Char.toLower :: seen)
      simp only [h, if_false, List.map_cons, List.nodup_cons]
      refine ⟨⟨?_, h1⟩, ?_⟩
      · intro hmem
        exact (h2 _ hmem) (List.mem_cons_self _ _)
      · intro x hx
        rcases List.mem_cons.mp hx with hx1 | hx2
        · rw [hx1]; exact h
        · intro hxs
          exact (h2 x hx2) (List.mem_cons_of_mem _ hxs)

/-- Every input tag's lowered image is either already seen or represented in
the de-duplicated output. -/
theorem dedupTags_covers (l : List Str) : ∀ seen, ∀ t ∈ l,
    (t.map Char.toLower) ∈ seen ∨
    (t.map Char.toLower) ∈ (dedupTags seen l).map (fun u => u.map Char.toLower) := by
  induction l with
  | nil => intro seen t ht; exact absurd ht (List.not_mem_nil t)
  | cons a rest ih =>
    intro seen t ht
    simp only [dedupTags]
    by_cases h : (a.map Char.toLower) ∈ seen
    · simp only [h, if_true]
      rcases List.mem_cons.mp ht with rfl | ht2
      · exact Or.inl h
      · exact ih seen t ht2
    · simp only [h, if_false, List.map_cons]
      rcases List.mem_cons.mp ht with rfl | ht2
      · exact Or.inr (List.mem_cons_self _ _)
      · rcases ih (a.map Char.toLower :: seen) t ht2 with h2 | h2
        · rcases List.mem_cons.mp h2 with h3 | h3
          · exact Or.inr (by rw [h3]; exact List.mem_cons_self _ _)
          · exact Or.inl h3
        · exact Or.inr (List.mem_cons_of_mem _ h2)

/-- Claim C4, amended: extract_tags returns the tag occurrences (hash
followed by alphanumerics, underscore, hyphen or slash, scanned after the
frontmatter block is removed) de-duplicated case-insensitively with
first-seen order preserved, each entry keeping its first-seen original
casing rather than being lowercase-normalized: the result is a subsequence
of the raw occurrence list, its lowered images are pairwise distinct, and
every raw occurrence is represented case-insensitively. -/
theorem C4_amended_tag_extraction (content : Str) :
    (extract_tags content).Sublist (rawTags content) ∧
    ((extract_tags content).map (fun t => t.map Char.toLower)).Nodup ∧
    (∀ t ∈ rawTags content, (t.map Char.toLower) ∈
      (extract_tags content).map (fun u => u.map Char.toLower)) := by
  refine ⟨dedupTags_sublist _ _, (dedupTags_lower_nodup _ _).1, ?_⟩
  intro t ht
  rcases dedupTags_covers (rawTags content) [] t ht with h | h
  · exact absurd h (List.not_mem_nil _)
  · exact h

/-- The per-file fold of the reindex pass only increments the skipped
counter and leaves the index state untouched when every markdown file in the
listing has an indexed mtime whose UTC upgrade is at least the file mtime. -/
theorem auto_index_fold_skips (yamlLoad : Str → Except Unit YamlDoc)
    (idx : Str → Option PyDatetime) (clock : Int) (files : List VaultFile) :
    ∀ (cnts : ReindexCounts) (st : IndexState),
    (∀ f ∈ files, mdSuffix.isSuffixOf f.path = true →
      ∃ t, idx f.path = some t ∧ f.mtime.value ≤ (upgradeToUtc t).value) →
    files.foldl (reindexStep yamlLoad idx clock) (cnts, st) =
      ({ cnts with skipped := cnts.skipped +
          (files.filter (fun f => mdSuffix.isSuffixOf f.path)).length }, st) := by
  induction files with
  | nil => intro cnts st _; simp
  | cons f rest ih =>
    intro cnts st h
    by_cases hmd : mdSuffix.isSuffixOf f.path
    · obtain ⟨t, ht, hle⟩ := h f (List.mem_cons_self f rest) hmd
      have step : reindexStep yamlLoad idx clock (cnts, st) f =
          ({ cnts with skipped := cnts.skipped + 1 }, st) := by
        simp [reindexStep, hmd, ht, hle]
      rw [List.foldl_cons, step,
        ih _ _ (fun g hg => h g (List.mem_cons_of_mem f hg))]
      simp only [List.filter_cons, hmd, if_true, List.length_cons]
      have harith : cnts.skipped + 1 +
          (rest.filter (fun g => mdSuffix.isSuffixOf g.path)).length =
          cnts.skipped +
          ((rest.filter (fun g => mdSuffix.isSuffixOf g.path)).length + 1) := by omega
      rw [harith]
    · have step : reindexStep yamlLoad idx clock (cnts, st) f = (cnts, st) := by
        simp [reindexStep, hmd]
      rw [List.foldl_cons, step,
        ih _ _ (fun g hg => h g (List.mem_cons_of_mem f hg))]
      simp [hmd]

/-- Claim C5: the incremental skip of the bulk reindex.  When every markdown
file's indexed mtime, upgraded to UTC when naive, is at least the file's
current mtime, the whole pass indexes nothing and errors on nothing, counts
every markdown file as skipped, and leaves the index state unchanged. -/
theorem C5_reindex_skip (yamlLoad : Str → Except Unit YamlDoc)
    (idx : Str → Option PyDatetime) (clock : Int) (files : List VaultFile)
    (st : IndexState)
    (h : ∀ f ∈ files, mdSuffix.isSuffixOf f.path = true →
      ∃ t, idx f.path = some t ∧ f.mtime.value ≤ (upgradeToUtc t).value) :
    (auto_index_pass yamlLoad idx clock files st).1.indexed = 0 ∧
    (auto_index_pass yamlLoad idx clock files st).1.errors = 0 ∧
    (auto_index_pass yamlLoad idx clock files st).1.skipped =
      (files.filter (fun f => mdSuffix.isSuffixOf f.path)).length ∧
    (auto_index_pass yamlLoad idx clock files st).2 = st := by
  have hfold := auto_index_fold_skips yamlLoad idx clock files ⟨0, 0, 0⟩ st h
  unfold auto_index_pass
  rw [hfold]
  exact ⟨rfl, rfl, by simp, rfl⟩

/-- Witness for claim C5 at a concrete input: one markdown file whose
indexed mtime is stored naive with the same reading as the file's aware UTC
mtime; the pass skips it and writes nothing. -/
theorem C5_witness :
    (auto_index_pass (fun _ => Except.error ())
      (fun p => if p == "notes/a.md".toList then some ⟨100, false⟩ else none) 7
      [⟨"notes/a.md".toList, ⟨100, true⟩, "hello".toList⟩] []).1.indexed = 0 ∧
    (auto_index_pass (fun _ => Except.error ())
      (fun p => if p == "notes/a.md".toList then some ⟨100, false⟩ else none) 7
      [⟨"notes/a.md".toList, ⟨100, true⟩, "hello".toList⟩] []).2 = [] := by
  have h := C5_reindex_skip (fun _ => Except.error ())
    (fun p => if p == "notes/a.md".toList then some ⟨100, false⟩ else none) 7
    [⟨"notes/a.md".toList, ⟨100, true⟩, "hello".toList⟩] []
    (by
      intro f hf _
      rw [List.mem_singleton] at hf
      subst hf
      exact ⟨⟨100, false⟩, rfl, by decide⟩)
  exact ⟨h.1, h.2.2.2⟩

/-- Claim C7: metadata extraction is total, and an internal frontmatter
parse failure degrades only the props sub-field.  Every sub-field other
than props is a function of the content alone (independent of the YAML
loader's behaviour), and when the frontmatter block is present but the
loader fails on it the props degrade to the empty mapping while the other
sub-fields are still those extracted from the content. -/
theorem C7_parse_total_and_local_degradation
    (yamlLoad yamlLoad' : Str → Except Unit YamlDoc) (content : Str) :
    ((parse yamlLoad content).tags = (parse yamlLoad' content).tags ∧
     (parse yamlLoad content).headings = (parse yamlLoad' content).headings ∧
     (parse yamlLoad content).links = (parse yamlLoad' content).links ∧
     (parse yamlLoad content).tasks = (parse yamlLoad' content).tasks ∧
     (parse yamlLoad content).blocks = (parse yamlLoad' content).blocks) ∧
    (∀ g, fmGroup content = some g → yamlLoad g = .error () →
      (parse yamlLoad content).props = []) := by
  refine ⟨⟨rfl, rfl, rfl, rfl, rfl⟩, ?_⟩
  intro g hg he
  simp [parse, extract_frontmatter, hg, he]

/-- Witness for claim C7 at a concrete input: content with a frontmatter
block on which the loader fails; props degrade to empty. -/
theorem C7_witness :
    (parse (fun _ => Except.error ())
      ("---\ntitle: x\n---\nBody #tag\n".toList)).props = [] :=
  (C7_parse_total_and_local_degradation (fun _ => Except.error ())
      (fun _ => Except.error ()) ("---\ntitle: x\n---\nBody #tag\n".toList)).2
    ("title: x".toList) rfl rfl

end WebObsidian
